import Mathlib

/-!
Verification of the top-level application controller of `destiny-power-bars`
(`src/App.tsx`): the display-order reconciler (default order, order validation,
drag-and-drop swap) and the refresh controller (manifest fetch handling, sticky
error flags, status derivation, aggregate power metrics).

Character identifiers are modelled as `String`, power values as `Int`, and a
snapshot set as a `List PowerBarsCharacterData` (arrival order is the list
order).  `undefined`-able React state is modelled with `Option`.
-/

namespace DestinyPowerBars

/-- `artifactData` field of a character: carries the artifact bonus power. -/
structure ArtifactData where
  bonusPower : Int
deriving DecidableEq, Repr

/-- One character's snapshot (`PowerBarsCharacterData`): its identifier
(`character.characterId` flattened to one field), overall power, and the
optional artifact data. -/
structure PowerBarsCharacterData where
  characterId : String
  overallPower : Int
  artifactData : Option ArtifactData
deriving DecidableEq, Repr

/-- The character identifiers of a snapshot set, in arrival order. -/
def characterIdsOf (data : List PowerBarsCharacterData) : List String :=
  data.map (·.characterId)

/-- `getDefaultCharacterDisplayOrder`: `characterData ? characterData.map(c =>
c.character.characterId) : []`. -/
def getDefaultCharacterDisplayOrder
    (characterData : Option (List PowerBarsCharacterData)) : List String :=
  match characterData with
  | some data => characterIdsOf data
  | none => []

/-- `isValidCharacterDisplayOrder`: `characterData && characterData.length ===
characterIds.length && characterIds.every(id => characterData.some(c =>
c.character.characterId === id)) && characterData.every(c =>
characterIds.includes(c.character.characterId))`.  A missing `characterData`
makes the JS expression falsy; we return `false` there. -/
def isValidCharacterDisplayOrder
    (characterData : Option (List PowerBarsCharacterData))
    (characterIds : List String) : Bool :=
  match characterData with
  | none => false
  | some data =>
    data.length == characterIds.length &&
    characterIds.all (fun id => data.any (fun c => c.characterId == id)) &&
    data.all (fun c => characterIds.contains c.characterId)

/-- JS `Array.prototype.indexOf`: the first index of `x` in `l`, or `-1` when
`x` does not occur. -/
def jsIndexOf (l : List String) (x : String) : Int :=
  if l.indexOf x < l.length then (l.indexOf x : Int) else -1

/-- JS `l.splice(i, 1, x)` observed through the resulting array: replaces one
element at (clamped) index `i` by `x`.  A negative `i` counts from the end of
the array (clamped at 0); an `i` past the end deletes nothing and appends. -/
def spliceReplace (l : List String) (i : Int) (x : String) : List String :=
  let start : Nat := if i < 0 then ((l.length : Int) + i).toNat else min i.toNat l.length
  l.take start ++ [x] ++ l.drop (start + 1)

/-- The two pieces of React state owned by the drag-and-drop logic:
`draggingCharacterId` and `characterDisplayOrder` (the persisted custom
order as last loaded/saved; `none` models `undefined`). -/
structure DragDropState where
  draggingCharacterId : Option String
  characterDisplayOrder : Option (List String)
deriving DecidableEq, Repr

/-- JS truthiness of `draggingCharacterId : string | undefined`:
`!draggingCharacterId` is true for `undefined` and for the empty string. -/
def jsFalsyId : Option String → Bool
  | none => true
  | some s => s == ""

/-- The `currentCharacterOrder` computed inside `dropOnCharacterId`:
`characterDisplayOrder && characterDisplayOrder.length > 0 ?
characterDisplayOrder : getDefaultCharacterDisplayOrder()`. -/
def currentCharacterOrder (stored : Option (List String))
    (defaultOrder : List String) : List String :=
  match stored with
  | some o => if o.length > 0 then o else defaultOrder
  | none => defaultOrder

/-- `dropOnCharacterId`: guard (`!draggingCharacterId || draggingCharacterId
=== dropCharacterId` → early return), then two `splice` replacements at the
indices of the dragged and dropped ids in the *original*
`currentCharacterOrder`, then `saveCharacterDisplayOrder(swappedOrder)` and
`setCharacterDisplayOrder(swappedOrder)`.  Returns the updated state together
with the order passed to `saveCharacterDisplayOrder` (`none` when no save
occurred). -/
def dropOnCharacterId (st : DragDropState) (defaultOrder : List String)
    (dropCharacterId : String) : DragDropState × Option (List String) :=
  if jsFalsyId st.draggingCharacterId ||
      st.draggingCharacterId == some dropCharacterId then
    (st, none)
  else
    let draggingId := st.draggingCharacterId.getD ""
    let order := currentCharacterOrder st.characterDisplayOrder defaultOrder
    let swappedOrder := spliceReplace order (jsIndexOf order draggingId) dropCharacterId
    let swappedOrder := spliceReplace swappedOrder (jsIndexOf order dropCharacterId) draggingId
    ({ st with characterDisplayOrder := some swappedOrder }, some swappedOrder)

/-- The `onDragStart` handler: `characterId => setDraggingCharacterId(characterId)`. -/
def onDragStart (st : DragDropState) (characterId : String) : DragDropState :=
  { st with draggingCharacterId := some characterId }

/-- The `onDragEnd` handler: `() => setDraggingCharacterId(undefined)`. -/
def onDragEnd (st : DragDropState) : DragDropState :=
  { st with draggingCharacterId := none }

/-- Modelled from the spec: the `CharacterDisplay` component
(`components/CharacterDisplay`, not under `src/`) drives one HTML5 drag
gesture and, when a drop lands on a card, invokes the `onDragDrop` callback
and then the `onDragEnd` callback, so a drop completing a swap ends the
gesture ("Idle → Dragging (on DragStart) → Idle (on DragEnd or on Drop
completing exactly one swap)"). -/
def onDropGesture (st : DragDropState) (defaultOrder : List String)
    (dropCharacterId : String) : DragDropState :=
  onDragEnd (dropOnCharacterId st defaultOrder dropCharacterId).1

/-- The abbreviation used in the swap theorems: the order obtained from
`order` by writing the dropped id at the first index of the dragged id and
the dragged id at the first index of the dropped id. -/
def swappedCharacterOrder (order : List String) (draggingId dropId : String) :
    List String :=
  (order.set (order.indexOf draggingId) dropId).set (order.indexOf dropId) draggingId

/-- The `useCharacterOrder` computation done on every render of `App`: start
from the default order; when character data is present and non-empty and a
non-empty stored order exists, adopt the stored order if
`isValidCharacterDisplayOrder` accepts it, else `setCharacterDisplayOrder
(undefined)`.  Returns the displayed order together with the stored order
after the render (`none` models the scheduled clear). -/
def effectiveCharacterOrder (characterData : Option (List PowerBarsCharacterData))
    (stored : Option (List String)) : List String × Option (List String) :=
  let defaultOrder := getDefaultCharacterDisplayOrder characterData
  match characterData, stored with
  | some data, some order =>
    if data.length > 0 && order.length > 0 then
      if isValidCharacterDisplayOrder (some data) order then (order, some order)
      else (defaultOrder, none)
    else (defaultOrder, some order)
  | _, stored => (defaultOrder, stored)

/-! ### Refresh controller: status derivation -/

/-- The distinct statuses produced by the `status` derivation chain in `App`.
Text payloads that matter to the claims are carried as fields. -/
inductive AppStatus where
  | systemDisabledMsg
  | serviceUnavailableMsg
  | authErrorMsg
  | manifestErrorMsg
  | authenticating
  | waitingForPlatformSelection
  | manifestSubStage (manifestState : String)
  | fetchingCharacterData
  | noCharacterData
  | empty
deriving DecidableEq, Repr

/-- The flags read by the `status` derivation in `App`.  `hasManifestData` is
the derived `manifestState === "Manifest ready"`. -/
structure AppFlags where
  isBungieSystemDisabled : Bool
  isBungieServiceUnavailable : Bool
  hasAuthError : Bool
  hasManifestError : Bool
  isAuthed : Bool
  hasSelectedMembership : Bool
  manifestState : String
  characterData : Option (List PowerBarsCharacterData)
  isFetchingCharacterData : Bool
deriving DecidableEq, Repr

/-- JS condition `!characterData || characterData.length === 0`. -/
def jsNoCharacterData : Option (List PowerBarsCharacterData) → Bool
  | none => true
  | some d => d.length == 0

/-- The `status` if/else chain of `App` (lines 276-336). -/
def deriveStatus (f : AppFlags) : AppStatus :=
  if f.isBungieSystemDisabled then .systemDisabledMsg
  else if f.isBungieServiceUnavailable then .serviceUnavailableMsg
  else if f.hasAuthError then .authErrorMsg
  else if f.hasManifestError then .manifestErrorMsg
  else if !f.isAuthed then .authenticating
  else if !f.hasSelectedMembership then .waitingForPlatformSelection
  else if !(f.manifestState == "Manifest ready") then .manifestSubStage f.manifestState
  else if jsNoCharacterData f.characterData then
    if f.isFetchingCharacterData then .fetchingCharacterData else .noCharacterData
  else .empty

/-- Spec-side formulation of the claimed precedence: the ordered list of
(condition, status) pairs from highest to lowest precedence. -/
def statusPrecedence (f : AppFlags) : List (Bool × AppStatus) :=
  [(f.isBungieSystemDisabled, .systemDisabledMsg),
   (f.isBungieServiceUnavailable, .serviceUnavailableMsg),
   (f.hasAuthError, .authErrorMsg),
   (f.hasManifestError, .manifestErrorMsg),
   (!f.isAuthed, .authenticating),
   (!f.hasSelectedMembership, .waitingForPlatformSelection),
   (!(f.manifestState == "Manifest ready"), .manifestSubStage f.manifestState),
   (jsNoCharacterData f.characterData,
     if f.isFetchingCharacterData then .fetchingCharacterData else .noCharacterData)]

/-- Spec-side formulation: the first entry whose condition holds wins;
when none holds the status is empty. -/
def firstMatchingStatus : List (Bool × AppStatus) → AppStatus
  | [] => .empty
  | (c, s) :: rest => if c then s else firstMatchingStatus rest

/-! ### Refresh controller: sticky flags and manifest fetch -/

/-- Manifest data as far as the controller observes it (an opaque payload). -/
structure ManifestData where
  version : String
deriving DecidableEq, Repr

/-- The controller state touched by the auth/manifest/character-data
handlers and the manifest progress events. -/
structure ControllerState where
  isAuthed : Bool
  disableManualLogin : Bool
  hasAuthError : Bool
  hasManifestError : Bool
  isBungieSystemDisabled : Bool
  isBungieServiceUnavailable : Bool
  manifestData : Option ManifestData
  manifestState : String
deriving DecidableEq, Repr

/-- The state-mutating completions and events handled by `App`:
`doAuth` outcomes, `doGetManifest` outcomes (a returned error carries whether
it is a `BungieSystemDisabledError` and its message; a thrown error only sets
the manifest error), the manifest progress events, `doGetCharacterData`
failures, and `LOG_OUT`. -/
inductive ControllerEvent where
  | authSucceeded
  | authFailed
  | manifestFetchErrored (isSystemDisabled : Bool) (message : String)
  | manifestFetchThrew
  | manifestFetchSucceeded (m : ManifestData)
  | manifestGetStarted
  | manifestLoadData
  | manifestFetchData
  | manifestParseData
  | manifestStoreData
  | manifestDataReady
  | characterDataErrored (isSystemDisabled : Bool) (message : String)
  | logOut
deriving DecidableEq, Repr

/-- One step of the controller: the `setX` calls performed by the handler of
each event, from `doAuth` (lines 49-74), `doGetManifest` (lines 76-109), the
`useEvent` manifest handlers (lines 181-204) and the `doGetCharacterData`
catch block (lines 142-150). -/
def step (s : ControllerState) : ControllerEvent → ControllerState
  | .authSucceeded => { s with isAuthed := true, hasAuthError := false }
  | .authFailed => { s with isAuthed := false, hasAuthError := true }
  | .manifestFetchErrored isSys msg =>
    let s1 := { s with hasManifestError := true }
    let s2 := if isSys then { s1 with isBungieSystemDisabled := true } else s1
    if msg == "503" then { s2 with isBungieServiceUnavailable := true } else s2
  | .manifestFetchThrew => { s with hasManifestError := true }
  | .manifestFetchSucceeded m => { s with manifestData := some m }
  | .manifestGetStarted =>
    { s with hasManifestError := false, manifestState := "Checking manifest version" }
  | .manifestLoadData => { s with manifestState := "Loading manifest data" }
  | .manifestFetchData => { s with manifestState := "Fetching manifest data from Bungie" }
  | .manifestParseData => { s with manifestState := "Processing manifest data" }
  | .manifestStoreData => { s with manifestState := "Saving manifest data" }
  | .manifestDataReady =>
    { s with hasManifestError := false, manifestState := "Manifest ready" }
  | .characterDataErrored isSys msg =>
    let s1 := if isSys then { s with isBungieSystemDisabled := true } else s
    if msg == "503" then { s1 with isBungieServiceUnavailable := true } else s1
  | .logOut => { s with isAuthed := false, disableManualLogin := false }

/-- Outcome of one `getManifest()` call as observed by `doGetManifest`. -/
inductive ManifestFetchOutcome where
  | ok (m : ManifestData)
  | fetchError (isSystemDisabled : Bool) (message : String)
deriving DecidableEq, Repr

/-- The `doGetManifest` handler applied to a fetch outcome. -/
def doGetManifestStep (s : ControllerState) : ManifestFetchOutcome → ControllerState
  | .fetchError isSys msg => step s (.manifestFetchErrored isSys msg)
  | .ok m => step s (.manifestFetchSucceeded m)

/-- Modelled from the spec: `getManifest` (`services/bungie-api`, not under
`src/`) reports progress "via a publish/subscribe event channel with named
stages" ending, on success, with the ready notification ("a later ready
notification also clears any sticky manifest error").  A complete successful
fetch round is therefore the `doGetManifest` success handler followed by the
`MANIFEST_DATA_READY` event handler; an erroring fetch round is the
`doGetManifest` error handler. -/
def manifestFetchRound (s : ControllerState) : ManifestFetchOutcome → ControllerState
  | .fetchError isSys msg => doGetManifestStep s (.fetchError isSys msg)
  | .ok m => step (doGetManifestStep s (.ok m)) .manifestDataReady

/-! ### Aggregate power metrics -/

/-- The observable effects of `updateCharacterData`, in order: the `ga.set`
analytics report and the `setCharacterData` publication. -/
inductive AppAction where
  | reportAnalytics (overallPower artifactPower totalPower : Int)
  | publishSnapshotSet (data : List PowerBarsCharacterData)
deriving DecidableEq, Repr

/-- `Math.max(...l)` for a non-empty argument list; `none` for the empty
list, where JS would produce the non-integer `-Infinity`. -/
def jsMathMax : List Int → Option Int
  | [] => none
  | x :: xs => some (xs.foldl max x)

/-- The artifact contribution of a character: `c.artifactData ?
c.artifactData.bonusPower : 0`. -/
def artifactBonusOf (c : PowerBarsCharacterData) : Int :=
  match c.artifactData with
  | some ad => ad.bonusPower
  | none => 0

/-- `updateCharacterData` (lines 120-132): computes the three aggregates,
reports them via `ga.set`, then publishes the snapshot set via
`setCharacterData`.  For the empty snapshot set JS computes `-Infinity`
aggregates, outside this integer model; no actions are recorded there. -/
def updateCharacterData (newData : List PowerBarsCharacterData) : List AppAction :=
  match jsMathMax (newData.map (·.overallPower)),
        jsMathMax (newData.map artifactBonusOf) with
  | some newOverallPower, some newArtifactPower =>
    [.reportAnalytics newOverallPower newArtifactPower
       (newOverallPower + newArtifactPower),
     .publishSnapshotSet newData]
  | _, _ => []

/-- The snapshot set of the spec's aggregate-metrics scenario:
`[{power:700,artifact:50},{power:720,artifact:40}]`. -/
def sampleSnapshotSet : List PowerBarsCharacterData :=
  [⟨"A", 700, some ⟨50⟩⟩, ⟨"B", 720, some ⟨40⟩⟩]

theorem isValidCharacterDisplayOrder_iff
    (data : List PowerBarsCharacterData) (order : List String) :
    isValidCharacterDisplayOrder (some data) order = true ↔
      data.length = order.length ∧
      (∀ id ∈ order, id ∈ characterIdsOf data) ∧
      (∀ id ∈ characterIdsOf data, id ∈ order) := by
  simp [isValidCharacterDisplayOrder, Bool.and_eq_true, beq_iff_eq,
    List.all_eq_true, List.any_eq_true, characterIdsOf, List.mem_map]
  tauto

/-- A valid order is a permutation of the snapshot set's identifiers, provided
those identifiers are pairwise distinct. -/
theorem perm_of_isValidCharacterDisplayOrder
    {data : List PowerBarsCharacterData} {order : List String}
    (hnd : (characterIdsOf data).Nodup)
    (hv : isValidCharacterDisplayOrder (some data) order = true) :
    order.Perm (characterIdsOf data) := by
  obtain ⟨hlen, _, hsub⟩ := (isValidCharacterDisplayOrder_iff data order).mp hv
  have hlen2 : (characterIdsOf data).length = order.length := by
    simpa [characterIdsOf] using hlen
  have hsp : (characterIdsOf data).Subperm order :=
    List.subperm_of_subset hnd (fun id hid => hsub id hid)
  exact (hsp.perm_of_length_le (le_of_eq hlen2.symm)).symm

theorem jsIndexOf_of_mem {l : List String} {x : String} (h : x ∈ l) :
    jsIndexOf l x = (l.indexOf x : Int) := by
  simp [jsIndexOf, List.indexOf_lt_length.mpr h]

theorem spliceReplace_natCast (l : List String) (n : Nat) (h : n < l.length)
    (y : String) : spliceReplace l (n : Int) y = l.set n y := by
  have h0 : ¬((n : Int) < 0) := by omega
  simp only [spliceReplace, if_neg h0, Int.toNat_natCast, Nat.min_eq_left (le_of_lt h)]
  rw [List.set_eq_take_cons_drop y h]
  simp

theorem get_cons_set_perm (t : List String) : ∀ (j : Nat) (hj : j < t.length)
    (a : String), List.Perm (t.get ⟨j, hj⟩ :: t.set j a) (a :: t) := by
  induction t with
  | nil => intro j hj a; simp at hj
  | cons b t ih =>
    intro j hj a
    cases j with
    | zero => exact List.Perm.swap a b t
    | succ j =>
      have hj' : j < t.length := by simpa using hj
      show List.Perm (t.get ⟨j, hj'⟩ :: b :: t.set j a) (a :: b :: t)
      exact (List.Perm.swap _ _ _).trans (((ih j hj' a).cons b).trans
        (List.Perm.swap _ _ _))

theorem set_set_get_perm (l : List String) : ∀ (i j : Nat) (hi : i < l.length)
    (hj : j < l.length),
    List.Perm ((l.set i (l.get ⟨j, hj⟩)).set j (l.get ⟨i, hi⟩)) l := by
  induction l with
  | nil => intro i j hi _; simp at hi
  | cons a t ih =>
    intro i j hi hj
    cases i with
    | zero =>
      cases j with
      | zero => exact List.Perm.refl _
      | succ j =>
        have hj' : j < t.length := by simpa using hj
        show List.Perm (t.get ⟨j, hj'⟩ :: t.set j a) (a :: t)
        exact get_cons_set_perm t j hj' a
    | succ i =>
      have hi' : i < t.length := by simpa using hi
      cases j with
      | zero =>
        show List.Perm (t.get ⟨i, hi'⟩ :: t.set i a) (a :: t)
        exact get_cons_set_perm t i hi' a
      | succ j =>
        have hj' : j < t.length := by simpa using hj
        show List.Perm (a :: (t.set i (t.get ⟨j, hj'⟩)).set j (t.get ⟨i, hi'⟩)) (a :: t)
        exact (ih i j hi' hj').cons a

theorem swappedCharacterOrder_perm {order : List String} {dragId dropId : String}
    (hdrag : dragId ∈ order) (hdrop : dropId ∈ order) :
    List.Perm (swappedCharacterOrder order dragId dropId) order := by
  have hi : order.indexOf dragId < order.length := List.indexOf_lt_length.mpr hdrag
  have hj : order.indexOf dropId < order.length := List.indexOf_lt_length.mpr hdrop
  have h := set_set_get_perm order (order.indexOf dragId) (order.indexOf dropId) hi hj
  rwa [List.indexOf_get, List.indexOf_get] at h

theorem indexOf_ne_of_get_ne {order : List String} {dragId dropId : String}
    (hdrag : dragId ∈ order) (hne : dragId ≠ dropId) :
    order.indexOf dragId ≠ order.indexOf dropId := by
  intro h
  have hi : order.indexOf dragId < order.length := List.indexOf_lt_length.mpr hdrag
  apply hne
  calc dragId = order.get ⟨order.indexOf dragId, hi⟩ := (List.indexOf_get hi).symm
    _ = order.get ⟨order.indexOf dropId, by omega⟩ := by congr 1; exact Fin.ext h
    _ = dropId := List.indexOf_get _

theorem dropOnCharacterId_eq_swapped (stored : Option (List String))
    (defaultOrder : List String) (dragId dropId : String)
    (hne : dragId ≠ "") (hdiff : dragId ≠ dropId)
    (hdrag : dragId ∈ currentCharacterOrder stored defaultOrder)
    (hdrop : dropId ∈ currentCharacterOrder stored defaultOrder) :
    dropOnCharacterId ⟨some dragId, stored⟩ defaultOrder dropId =
      ({ draggingCharacterId := some dragId,
         characterDisplayOrder :=
           some (swappedCharacterOrder
             (currentCharacterOrder stored defaultOrder) dragId dropId) },
       some (swappedCharacterOrder
         (currentCharacterOrder stored defaultOrder) dragId dropId)) := by
  have hguard : (jsFalsyId (some dragId) ||
      (some dragId == some dropId)) = false := by
    simp [jsFalsyId, hne, hdiff]
  set order := currentCharacterOrder stored defaultOrder with horder
  have hi : order.indexOf dragId < order.length := List.indexOf_lt_length.mpr hdrag
  have hj : order.indexOf dropId < order.length := List.indexOf_lt_length.mpr hdrop
  have hj2 : order.indexOf dropId < (order.set (order.indexOf dragId) dropId).length := by
    simpa using hj
  simp only [dropOnCharacterId, hguard, Bool.false_eq_true, if_false,
    Option.getD_some, ← horder, jsIndexOf_of_mem hdrag, jsIndexOf_of_mem hdrop,
    spliceReplace_natCast order _ hi dropId,
    spliceReplace_natCast _ _ hj2 dragId, swappedCharacterOrder]

/-- C1: for a snapshot set with pairwise-distinct character identifiers,
`isValidCharacterDisplayOrder` accepts an order `O` exactly when `O` and the
snapshot identifier list have equal length, every id of `O` occurs among the
snapshot ids, and every snapshot id occurs in `O`; in particular an `O`
containing a duplicated identifier is rejected. -/
theorem validateOrder_set_equality
    (data : List PowerBarsCharacterData) (order : List String)
    (hnd : (characterIdsOf data).Nodup) :
    (isValidCharacterDisplayOrder (some data) order = true ↔
      order.length = (characterIdsOf data).length ∧
      (∀ id ∈ order, id ∈ characterIdsOf data) ∧
      (∀ id ∈ characterIdsOf data, id ∈ order)) ∧
    (¬ order.Nodup → isValidCharacterDisplayOrder (some data) order = false) := by
  have hlen : (characterIdsOf data).length = data.length := List.length_map _ _
  constructor
  · rw [isValidCharacterDisplayOrder_iff]
    constructor
    · rintro ⟨h1, h2, h3⟩; exact ⟨by omega, h2, h3⟩
    · rintro ⟨h1, h2, h3⟩; exact ⟨by omega, h2, h3⟩
  · intro hdup
    rcases Bool.eq_false_or_eq_true
      (isValidCharacterDisplayOrder (some data) order) with hv | hv
    · exact absurd
        ((perm_of_isValidCharacterDisplayOrder hnd hv).nodup_iff.mpr hnd) hdup
    · exact hv

/-- Witness for `validateOrder_set_equality`: the permuted order `["B","A"]`
is accepted against the two-character snapshot set `A`, `B`. -/
theorem validateOrder_set_equality_witness :
    isValidCharacterDisplayOrder
      (some [⟨"A", 750, none⟩, ⟨"B", 760, none⟩]) ["B", "A"] = true :=
  ((validateOrder_set_equality [⟨"A", 750, none⟩, ⟨"B", 760, none⟩] ["B", "A"]
    (by decide)).1).mpr (by decide)

/-- C2 as stated is false: with current order `["A","B"]`, a drag in progress
on id `"C"` (absent from the order) and distinct target `"A"`, the drop
produces `["C","A"]`, which is not a permutation of the input order: `"C"`
was added and `"B"` removed (JS `indexOf` returns `-1` for the absent id and
`splice(-1, 1, x)` replaces the last element). -/
theorem dropOn_absent_id_breaks_multiset :
    (dropOnCharacterId ⟨some "C", some ["A", "B"]⟩ [] "A").1.characterDisplayOrder
      = some ["C", "A"] ∧
    ¬ List.Perm ["C", "A"] ["A", "B"] := by
  refine ⟨by decide, fun h => ?_⟩
  have hmem : "C" ∈ ["A", "B"] := h.mem_iff.mp (by decide)
  simp at hmem

/-- C2 (amended): when the drag is in progress on a non-empty identifier that
occurs in the current effective order and the distinct target identifier also
occurs there, `dropOnCharacterId` produces the pairwise swap: the first
position of the dragged id now holds the target id, the first position of the
target id now holds the dragged id, every other position is unchanged, the
result is a permutation of the input order, and it is both saved and adopted
as the new custom order. -/
theorem dropOn_swap_of_mem (stored : Option (List String))
    (defaultOrder : List String) (dragId dropId : String)
    (hne : dragId ≠ "") (hdiff : dragId ≠ dropId)
    (hdrag : dragId ∈ currentCharacterOrder stored defaultOrder)
    (hdrop : dropId ∈ currentCharacterOrder stored defaultOrder) :
    let order := currentCharacterOrder stored defaultOrder
    let swapped := swappedCharacterOrder order dragId dropId
    dropOnCharacterId ⟨some dragId, stored⟩ defaultOrder dropId =
      ({ draggingCharacterId := some dragId,
         characterDisplayOrder := some swapped }, some swapped) ∧
    List.Perm swapped order ∧
    swapped[order.indexOf dragId]? = some dropId ∧
    swapped[order.indexOf dropId]? = some dragId ∧
    ∀ k : Nat, k ≠ order.indexOf dragId → k ≠ order.indexOf dropId →
      swapped[k]? = order[k]? := by
  set order := currentCharacterOrder stored defaultOrder with horder
  have hi : order.indexOf dragId < order.length := List.indexOf_lt_length.mpr hdrag
  have hj : order.indexOf dropId < order.length := List.indexOf_lt_length.mpr hdrop
  have hij : order.indexOf dragId ≠ order.indexOf dropId :=
    indexOf_ne_of_get_ne hdrag hdiff
  refine ⟨dropOnCharacterId_eq_swapped stored defaultOrder dragId dropId
      hne hdiff hdrag hdrop,
    swappedCharacterOrder_perm hdrag hdrop, ?_, ?_, ?_⟩
  · simp [swappedCharacterOrder, List.getElem?_set, Ne.symm hij, hij, hi]
  · simp [swappedCharacterOrder, List.getElem?_set, hj]
  · intro k hk1 hk2
    simp [swappedCharacterOrder, List.getElem?_set, Ne.symm hk1, Ne.symm hk2]

/-- Witness for `dropOn_swap_of_mem`: dragging `"A"` onto `"B"` in the stored
order `["A","B"]` saves and adopts `["B","A"]`. -/
theorem dropOn_swap_of_mem_witness :
    (dropOnCharacterId ⟨some "A", some ["A", "B"]⟩ [] "B").1.characterDisplayOrder
      = some ["B", "A"] := by
  have h := dropOn_swap_of_mem (some ["A", "B"]) [] "A" "B"
    (by decide) (by decide) (by decide) (by decide)
  rw [h.1]
  decide

/-- C3 as stated is false at the empty snapshot set: with character data
present but empty and stored order `["X"]`, the stored order is invalid, yet
the render neither validates nor clears it (the `characterData.length > 0`
guard skips the whole block), so the stale order survives. -/
theorem effectiveOrder_empty_data_keeps_stale_order :
    isValidCharacterDisplayOrder (some ([] : List PowerBarsCharacterData)) ["X"]
      = false ∧
    (effectiveCharacterOrder (some []) (some ["X"])).2 = some ["X"] := by
  decide

/-- C3 (amended): whenever a non-empty snapshot set is present and a
non-empty custom order is stored, a stored order that validates is displayed
and kept, and one that does not is replaced by the default order with the
stale stored order cleared; moreover, for every stored order, when the
snapshot identifiers are pairwise distinct the displayed effective order is a
permutation of them. -/
theorem effectiveOrder_valid_or_default
    (data : List PowerBarsCharacterData) (order : List String)
    (stored : Option (List String)) :
    (data ≠ [] → order ≠ [] →
      (isValidCharacterDisplayOrder (some data) order = true →
        effectiveCharacterOrder (some data) (some order) = (order, some order)) ∧
      (isValidCharacterDisplayOrder (some data) order = false →
        effectiveCharacterOrder (some data) (some order) =
          (getDefaultCharacterDisplayOrder (some data), none))) ∧
    ((characterIdsOf data).Nodup →
      List.Perm (effectiveCharacterOrder (some data) stored).1
        (characterIdsOf data)) := by
  constructor
  · intro hdata horder
    have h1 : 0 < data.length := List.length_pos.mpr hdata
    have h2 : 0 < order.length := List.length_pos.mpr horder
    constructor
    · intro hv
      simp [effectiveCharacterOrder, h1, h2, hv]
    · intro hv
      simp [effectiveCharacterOrder, h1, h2, hv]
  · intro hnd
    match stored with
    | none =>
      simp [effectiveCharacterOrder, getDefaultCharacterDisplayOrder]
    | some o =>
      by_cases h1 : 0 < data.length
      · by_cases h2 : 0 < o.length
        · rcases Bool.eq_false_or_eq_true
            (isValidCharacterDisplayOrder (some data) o) with hv | hv
          · simpa [effectiveCharacterOrder, h1, h2, hv]
              using perm_of_isValidCharacterDisplayOrder hnd hv
          · simp [effectiveCharacterOrder, h1, h2, hv,
              getDefaultCharacterDisplayOrder]
        · simp [effectiveCharacterOrder, h1, h2,
            getDefaultCharacterDisplayOrder]
      · simp [effectiveCharacterOrder, h1,
          getDefaultCharacterDisplayOrder]

/-- Witness for `effectiveOrder_valid_or_default`: the spec scenario
(persisted `["X","Y"]`, snapshot ids `A`, `B`) falls back to the default
order and clears the stale stored order. -/
theorem effectiveOrder_valid_or_default_witness :
    effectiveCharacterOrder (some sampleSnapshotSet) (some ["X", "Y"]) =
      (getDefaultCharacterDisplayOrder (some sampleSnapshotSet), none) :=
  ((effectiveOrder_valid_or_default sampleSnapshotSet ["X", "Y"] none).1
    (by decide) (by decide)).2 (by decide)

/-- C4: the rendered status equals the first matching entry of the spec's
precedence list (system-disabled > service-unavailable > auth-error >
manifest-error > not-authed > no-membership > manifest-not-ready > no-data,
else empty); in particular when the system-disabled flag is set the status is
the system-disabled message regardless of every other flag. -/
theorem status_precedence_total (f : AppFlags) :
    deriveStatus f = firstMatchingStatus (statusPrecedence f) ∧
    (f.isBungieSystemDisabled = true → deriveStatus f = .systemDisabledMsg) := by
  constructor
  · rfl
  · intro h
    simp [deriveStatus, h]

/-- Witness for `status_precedence_total`: with the system-disabled flag set
and every other error flag also set (not authed, no membership, manifest not
ready, no data, fetching), the status is the system-disabled message. -/
theorem status_precedence_total_witness :
    deriveStatus ⟨true, true, true, true, false, false, "Unknown", none, true⟩
      = .systemDisabledMsg :=
  (status_precedence_total
    ⟨true, true, true, true, false, false, "Unknown", none, true⟩).2 rfl

theorem jsMathMax_spec (x : Int) (xs : List Int) :
    ∃ m, jsMathMax (x :: xs) = some m ∧
      (∀ y ∈ x :: xs, y ≤ m) ∧ m ∈ x :: xs := by
  induction xs generalizing x with
  | nil => exact ⟨x, rfl, by simp, by simp⟩
  | cons b xs ih =>
    obtain ⟨m, hm, hle, hmem⟩ := ih (max x b)
    refine ⟨m, hm, ?_, ?_⟩
    · intro y hy
      have hmax : max x b ≤ m := hle _ (List.mem_cons_self _ _)
      rcases List.mem_cons.mp hy with hyx | hy2
      · exact hyx ▸ le_trans (le_max_left x b) hmax
      · rcases List.mem_cons.mp hy2 with hyb | hy3
        · exact hyb ▸ le_trans (le_max_right x b) hmax
        · exact hle y (List.mem_cons_of_mem _ hy3)
    · rcases hmem with _ | ⟨_, hmem⟩
      · rcases max_choice x b with hc | hc
        · rw [hc]
          exact List.mem_cons_self x _
        · rw [hc]
          exact List.mem_cons_of_mem x (List.mem_cons_self b xs)
      · exact List.mem_cons_of_mem x (List.mem_cons_of_mem b hmem)

/-- C5: for every non-empty delivered snapshot set, `updateCharacterData`
computes `newOverallPower` as the maximum overall power, `newArtifactPower`
as the maximum artifact bonus power (missing artifact counted as 0),
`newTotalPower` as their sum, and performs the analytics report before
publishing the snapshot set. -/
theorem updateCharacterData_metrics (newData : List PowerBarsCharacterData)
    (h : newData ≠ []) :
    ∃ o a : Int,
      jsMathMax (newData.map (·.overallPower)) = some o ∧
      jsMathMax (newData.map artifactBonusOf) = some a ∧
      (∀ c ∈ newData, c.overallPower ≤ o) ∧
      (∃ c ∈ newData, c.overallPower = o) ∧
      (∀ c ∈ newData, artifactBonusOf c ≤ a) ∧
      (∃ c ∈ newData, artifactBonusOf c = a) ∧
      updateCharacterData newData =
        [.reportAnalytics o a (o + a), .publishSnapshotSet newData] := by
  match newData with
  | [] => exact absurd rfl h
  | c :: rest =>
    obtain ⟨o, ho, hole, homem⟩ :=
      jsMathMax_spec c.overallPower (rest.map (·.overallPower))
    obtain ⟨a, ha, hale, hamem⟩ :=
      jsMathMax_spec (artifactBonusOf c) (rest.map artifactBonusOf)
    have hmo : jsMathMax ((c :: rest).map (·.overallPower)) = some o := ho
    have hma : jsMathMax ((c :: rest).map artifactBonusOf) = some a := ha
    refine ⟨o, a, hmo, hma, ?_, ?_, ?_, ?_, ?_⟩
    · intro d hd
      exact hole _ (by simpa using List.mem_map_of_mem (·.overallPower) hd)
    · have : o ∈ (c :: rest).map (·.overallPower) := by simpa using homem
      obtain ⟨d, hd, hde⟩ := List.mem_map.mp this
      exact ⟨d, hd, hde⟩
    · intro d hd
      exact hale _ (by simpa using List.mem_map_of_mem artifactBonusOf hd)
    · have : a ∈ (c :: rest).map artifactBonusOf := by simpa using hamem
      obtain ⟨d, hd, hde⟩ := List.mem_map.mp this
      exact ⟨d, hd, hde⟩
    · simp only [updateCharacterData, hmo, hma]

/-- Witness for `updateCharacterData_metrics`: the spec scenario
`[{power:700,artifact:50},{power:720,artifact:40}]` reports 720, 50 and 770
and then publishes the snapshot set. -/
theorem updateCharacterData_metrics_witness :
    updateCharacterData sampleSnapshotSet =
      [.reportAnalytics 720 50 770, .publishSnapshotSet sampleSnapshotSet] := by
  obtain ⟨o, a, h1, h2, _, _, _, _, h7⟩ :=
    updateCharacterData_metrics sampleSnapshotSet (by decide)
  have ho : (720 : Int) = o := Option.some.inj (by rw [← h1]; decide)
  have ha : (50 : Int) = a := Option.some.inj (by rw [← h2]; decide)
  rw [h7, ← ho, ← ha]
  decide

/-- C6: starting from a state without the Bungie flags set, a manifest fetch
that returns an error sets the generic manifest-error flag, sets the
system-disabled flag iff the error is a `BungieSystemDisabledError`, sets the
service-unavailable flag iff the error message is `"503"`, and stores no
manifest data; a fetch that succeeds stores the manifest data and ends with
the manifest-error flag cleared. -/
theorem manifestFetch_flag_classification (s : ControllerState)
    (isSys : Bool) (msg : String) (m : ManifestData)
    (hsys : s.isBungieSystemDisabled = false)
    (hsvc : s.isBungieServiceUnavailable = false) :
    ((manifestFetchRound s (.fetchError isSys msg)).hasManifestError = true ∧
     (manifestFetchRound s (.fetchError isSys msg)).isBungieSystemDisabled = isSys ∧
     (manifestFetchRound s (.fetchError isSys msg)).isBungieServiceUnavailable
       = (msg == "503") ∧
     (manifestFetchRound s (.fetchError isSys msg)).manifestData
       = s.manifestData) ∧
    ((manifestFetchRound s (.ok m)).manifestData = some m ∧
     (manifestFetchRound s (.ok m)).hasManifestError = false) := by
  refine ⟨?_, by simp [manifestFetchRound, doGetManifestStep, step]⟩
  cases isSys <;>
    rcases Bool.eq_false_or_eq_true (msg == "503") with hm | hm <;>
    simp [manifestFetchRound, doGetManifestStep, step, hm, hsys, hsvc]

/-- Witness for `manifestFetch_flag_classification`: from a clean state, a
`BungieSystemDisabledError` with message `"503"` sets the system-disabled
flag, and a successful fetch ends with the manifest error cleared. -/
theorem manifestFetch_flag_classification_witness :
    (manifestFetchRound ⟨true, false, false, false, false, false, none, "Unknown"⟩
      (.fetchError true "503")).isBungieSystemDisabled = true ∧
    (manifestFetchRound ⟨true, false, false, false, false, false, none, "Unknown"⟩
      (.ok ⟨"v1"⟩)).hasManifestError = false :=
  ⟨(manifestFetch_flag_classification
      ⟨true, false, false, false, false, false, none, "Unknown"⟩
      true "503" ⟨"v1"⟩ rfl rfl).1.2.1,
   (manifestFetch_flag_classification
      ⟨true, false, false, false, false, false, none, "Unknown"⟩
      true "503" ⟨"v1"⟩ rfl rfl).2.2⟩

/-- C7 as stated is false: with the Bungie system-disabled and
service-unavailable flags set, a subsequent manifest fetch that explicitly
succeeds (through the ready notification) leaves both flags set — no handler
in the controller ever resets them. -/
theorem sticky_flags_survive_manifest_success :
    (manifestFetchRound ⟨true, false, false, false, true, true, none, "Unknown"⟩
      (.ok ⟨"v1"⟩)).isBungieSystemDisabled = true ∧
    (manifestFetchRound ⟨true, false, false, false, true, true, none, "Unknown"⟩
      (.ok ⟨"v1"⟩)).isBungieServiceUnavailable = true := by
  decide

/-- C7 (amended): the system-disabled and service-unavailable flags, once
set, are never cleared by any controller event; the auth-error flag, once
set, is cleared exactly by a successful auth attempt; the manifest-error
flag, once set, is cleared exactly when a manifest check starts
(`GET_MANIFEST`) or when the manifest becomes ready
(`MANIFEST_DATA_READY`) — not merely by a successful fetch completion. -/
theorem sticky_flag_clearing_characterization (s : ControllerState)
    (e : ControllerEvent) :
    (s.isBungieSystemDisabled = true →
      (step s e).isBungieSystemDisabled = true) ∧
    (s.isBungieServiceUnavailable = true →
      (step s e).isBungieServiceUnavailable = true) ∧
    (s.hasAuthError = true →
      ((step s e).hasAuthError = false ↔ e = .authSucceeded)) ∧
    (s.hasManifestError = true →
      ((step s e).hasManifestError = false ↔
        (e = .manifestGetStarted ∨ e = .manifestDataReady))) := by
  cases e with
  | manifestFetchErrored isSys msg =>
    cases isSys <;>
      rcases Bool.eq_false_or_eq_true (msg == "503") with hm | hm <;>
      simp [step, hm]
  | characterDataErrored isSys msg =>
    cases isSys <;>
      rcases Bool.eq_false_or_eq_true (msg == "503") with hm | hm <;>
      simp [step, hm]
  | authSucceeded => simp [step]
  | authFailed => simp [step]
  | manifestFetchThrew => simp [step]
  | manifestFetchSucceeded m => simp [step]
  | manifestGetStarted => simp [step]
  | manifestLoadData => simp [step]
  | manifestFetchData => simp [step]
  | manifestParseData => simp [step]
  | manifestStoreData => simp [step]
  | manifestDataReady => simp [step]
  | logOut => simp [step]

/-- Witness for `sticky_flag_clearing_characterization`: from a state with
every sticky flag set, a successful auth clears the auth error, and the
system-disabled flag survives the manifest-ready notification. -/
theorem sticky_flag_clearing_characterization_witness :
    (step ⟨false, false, true, true, true, true, none, "Unknown"⟩
      .authSucceeded).hasAuthError = false ∧
    (step ⟨false, false, true, true, true, true, none, "Unknown"⟩
      .manifestDataReady).isBungieSystemDisabled = true :=
  ⟨((sticky_flag_clearing_characterization
      ⟨false, false, true, true, true, true, none, "Unknown"⟩
      .authSucceeded).2.2.1 rfl).mpr rfl,
   (sticky_flag_clearing_characterization
      ⟨false, false, true, true, true, true, none, "Unknown"⟩
      .manifestDataReady).1 rfl⟩

/-- C8: clearing the dragged id twice equals clearing it once, and a drop
with no drag in progress, or onto the dragged id itself, changes neither the
drag-and-drop state nor the persisted order and performs no save. -/
theorem dragEnd_idempotent_dropOn_guard_noop (st : DragDropState)
    (defaultOrder : List String) (dropId : String) :
    onDragEnd (onDragEnd st) = onDragEnd st ∧
    (st.draggingCharacterId = none →
      dropOnCharacterId st defaultOrder dropId = (st, none)) ∧
    (st.draggingCharacterId = some dropId →
      dropOnCharacterId st defaultOrder dropId = (st, none)) := by
  refine ⟨rfl, ?_, ?_⟩ <;> intro h <;> simp [dropOnCharacterId, jsFalsyId, h]

/-- Witness for `dragEnd_idempotent_dropOn_guard_noop`: a drop with no drag
in progress leaves the state and the stored order untouched with no save. -/
theorem dragEnd_idempotent_dropOn_guard_noop_witness :
    dropOnCharacterId ⟨none, some ["A", "B"]⟩ [] "B" =
      (⟨none, some ["A", "B"]⟩, none) :=
  (dragEnd_idempotent_dropOn_guard_noop ⟨none, some ["A", "B"]⟩ [] "B").2.1 rfl

/-- C9: `onDragStart` records exactly the started identifier, `onDragEnd`
returns to the idle state (no dragged identifier recorded), and a drop
gesture that completes a swap also ends with no dragged identifier recorded;
the state holds at most one dragged identifier by construction
(`Option String`). -/
theorem drag_gesture_state_machine (st : DragDropState) (id : String)
    (defaultOrder : List String) (dropId : String) :
    (onDragStart st id).draggingCharacterId = some id ∧
    (onDragEnd st).draggingCharacterId = none ∧
    (onDropGesture st defaultOrder dropId).draggingCharacterId = none :=
  ⟨rfl, rfl, rfl⟩

/-- C10: a stored custom order that is the empty sequence behaves exactly
like an absent custom order: the render displays the default order and
leaves the empty stored order in place (neither adopted nor cleared), and a
drop saves the same order whether the stored order is empty or absent (the
swap operates on the default order in both cases). -/
theorem empty_stored_order_as_absent
    (characterData : Option (List PowerBarsCharacterData))
    (dragging : Option String) (defaultOrder : List String) (dropId : String) :
    effectiveCharacterOrder characterData (some []) =
      (getDefaultCharacterDisplayOrder characterData, some []) ∧
    (effectiveCharacterOrder characterData (some [])).1 =
      (effectiveCharacterOrder characterData none).1 ∧
    (dropOnCharacterId ⟨dragging, some []⟩ defaultOrder dropId).2 =
      (dropOnCharacterId ⟨dragging, none⟩ defaultOrder dropId).2 := by
  refine ⟨?_, ?_, ?_⟩
  · cases characterData <;> simp [effectiveCharacterOrder]
  · cases characterData <;> simp [effectiveCharacterOrder]
  · rcases Bool.eq_false_or_eq_true
      (jsFalsyId dragging || (dragging == some dropId)) with hg | hg <;>
      simp [dropOnCharacterId, currentCharacterOrder, hg]

end DestinyPowerBars
